import Mathlib

/-!
Verification of the `suggestions.mention` endpoint
(`src/server/routes/api/suggestions/suggestions.ts`).

The endpoint is embedded shallowly: database tables become lists of
records, sequelize `where` options become explicit predicate structures
evaluated against records, the SQL `LIKE` operator (with `%`/`_`
wildcards and `\` escape, as used by the `unaccent(LOWER(..)) like
unaccent(LOWER(:query))` literals) becomes an executable matcher, and
`findAll` with `order`/`offset`/`limit` becomes filter + sort + drop +
take.  External collaborators (document/collection search, presenters,
the `can` policy checks) are passed in as parameters or opaque data.
-/

namespace Suggestions

/-- Modelled from the spec: role classification of a user, "one of
{Member, Viewer, Guest, Admin}".  The role getters of the user model are
not part of the source under review. -/
inductive UserRole where
  | admin
  | member
  | viewer
  | guest
deriving DecidableEq

/-- Modelled from the spec: the team record carries the boolean-valued
preference keyed `RestrictExternalDirectory`; `none` models an absent
preference (`getPreference` returning `undefined`). -/
structure Team where
  restrictExternalDirectory : Option Bool
deriving DecidableEq

/-- The authenticated actor (`ctx.state.auth.user`): id, team id, role
flags and an optional team reference for preference lookup. -/
structure Actor where
  id : Nat
  teamId : Nat
  role : UserRole
  team : Option Team
deriving DecidableEq

/-- Modelled from the spec: `actor.isViewer` role flag. -/
def Actor.isViewer (a : Actor) : Bool := a.role = UserRole.viewer

/-- Modelled from the spec: `actor.isGuest` role flag. -/
def Actor.isGuest (a : Actor) : Bool := a.role = UserRole.guest

/-- Modelled from the spec: `team.getPreference(TeamPreference.RestrictExternalDirectory)`
returns the stored preference value, absent when unset. -/
def Team.getRestrictExternalDirectory (t : Team) : Option Bool :=
  t.restrictExternalDirectory

/-- A row of the users table: id, team id, name, email and the
suspension timestamp (`suspendedAt`, `none` when not suspended). -/
structure User where
  id : Nat
  teamId : Nat
  name : String
  email : String
  suspendedAt : Option Nat
deriving DecidableEq

/-- A row of the groups table: id, team id, name and the
`disableMentions` flag. -/
structure Group where
  id : Nat
  teamId : Nat
  name : String
  disableMentions : Bool
deriving DecidableEq

/-- A row of the group_users association table. -/
structure GroupUser where
  groupId : Nat
  userId : Nat
deriving DecidableEq

/-- The queryable store visible to the endpoint. -/
structure Database where
  users : List User
  groups : List Group
  groupUsers : List GroupUser
deriving DecidableEq

/-- `restrictDirectory` from the handler:
`(actor.isViewer || actor.isGuest) && !!actor.team?.getPreference(TeamPreference.RestrictExternalDirectory)`.
JS truthiness of the optional-chained preference: `undefined` (no team or
no preference) and `false` are falsy. -/
def restrictDirectory (actor : Actor) : Bool :=
  (actor.isViewer || actor.isGuest) &&
    (match actor.team with
     | none => false
     | some t => (t.getRestrictExternalDirectory).getD false)

/-- Modelled from the spec: `actor.groupIds()` — "a method to fetch the
group memberships of a given actor" — read off the association table. -/
def groupIdsOf (db : Database) (actorId : Nat) : List Nat :=
  (db.groupUsers.filter (fun gu => gu.userId = actorId)).map GroupUser.groupId

/-- `actorGroupIds` in the handler: initialised to `[]` and populated by
`await actor.groupIds()` only when `restrictDirectory` holds. -/
def actorGroupIdsOf (db : Database) (actor : Actor) : List Nat :=
  if restrictDirectory actor then groupIdsOf db actor.id else []

/-! ## SQL LIKE matching

The user/group text filters are the SQL literals
`unaccent(LOWER(field)) like unaccent(LOWER(:query))` with the
replacement `:query` bound to `` `%${query}%` ``.  PostgreSQL `LIKE`
treats `%` as "any sequence", `_` as "any single character", and `\` as
the escape character.  `likeMatchF` is a fuel-indexed (structurally
recursive, hence kernel-evaluable) matcher of a pattern against a
string; every recursive call strictly decreases `p.length + s.length`,
so `likeMatch` supplies fuel `p.length + s.length + 1`. -/

def likeMatchF : Nat → List Char → List Char → Bool
  | 0, _, _ => false
  | _ + 1, [], s => s.isEmpty
  | f + 1, c :: p, s =>
    if c = '%' then
      likeMatchF f p s ||
        (match s with
         | [] => false
         | _ :: s' => likeMatchF f (c :: p) s')
    else if c = '_' then
      (match s with
       | [] => false
       | _ :: s' => likeMatchF f p s')
    else if c = '\\' then
      (match p with
       | [] => false
       | c₂ :: p' =>
         match s with
         | [] => false
         | c' :: s' => decide (c' = c₂) && likeMatchF f p' s')
    else
      (match s with
       | [] => false
       | c' :: s' => decide (c' = c) && likeMatchF f p s')

/-- PostgreSQL `LIKE`: does the string (second argument) match the
pattern (first argument)? -/
def likeMatch (p s : List Char) : Bool :=
  likeMatchF (p.length + s.length + 1) p s
/-! ## Normalization: `unaccent(LOWER(..))`

The SQL `LOWER` and the `unaccent` extension are external collaborators
of the endpoint; they are embedded character-wise over the Latin
range the tests and spec exercise.  `LOWER` is applied first, then
`unaccent`, exactly as in the SQL literals. -/

/-- SQL `LOWER` on one character: ASCII letters, plus the common
accented Latin uppercase letters. -/
def sqlLowerChar (c : Char) : Char :=
  match c with
  | 'A' => 'a' | 'B' => 'b' | 'C' => 'c' | 'D' => 'd' | 'E' => 'e' | 'F' => 'f'
  | 'G' => 'g' | 'H' => 'h' | 'I' => 'i' | 'J' => 'j' | 'K' => 'k' | 'L' => 'l'
  | 'M' => 'm' | 'N' => 'n' | 'O' => 'o' | 'P' => 'p' | 'Q' => 'q' | 'R' => 'r'
  | 'S' => 's' | 'T' => 't' | 'U' => 'u' | 'V' => 'v' | 'W' => 'w' | 'X' => 'x'
  | 'Y' => 'y' | 'Z' => 'z'
  | 'À' => 'à' | 'Á' => 'á' | 'Â' => 'â' | 'Ã' => 'ã' | 'Ä' => 'ä' | 'Å' => 'å'
  | 'Ç' => 'ç' | 'È' => 'è' | 'É' => 'é' | 'Ê' => 'ê' | 'Ë' => 'ë'
  | 'Ì' => 'ì' | 'Í' => 'í' | 'Î' => 'î' | 'Ï' => 'ï' | 'Ñ' => 'ñ'
  | 'Ò' => 'ò' | 'Ó' => 'ó' | 'Ô' => 'ô' | 'Õ' => 'õ' | 'Ö' => 'ö'
  | 'Ù' => 'ù' | 'Ú' => 'ú' | 'Û' => 'û' | 'Ü' => 'ü' | 'Ý' => 'ý'
  | c => c

/-- The `unaccent` dictionary on one character: strips the diacritic
from the common accented Latin letters, leaves everything else alone. -/
def unaccentChar (c : Char) : Char :=
  match c with
  | 'à' => 'a' | 'á' => 'a' | 'â' => 'a' | 'ã' => 'a' | 'ä' => 'a' | 'å' => 'a'
  | 'ç' => 'c' | 'è' => 'e' | 'é' => 'e' | 'ê' => 'e' | 'ë' => 'e'
  | 'ì' => 'i' | 'í' => 'i' | 'î' => 'i' | 'ï' => 'i' | 'ñ' => 'n'
  | 'ò' => 'o' | 'ó' => 'o' | 'ô' => 'o' | 'õ' => 'o' | 'ö' => 'o'
  | 'ù' => 'u' | 'ú' => 'u' | 'û' => 'u' | 'ü' => 'u' | 'ý' => 'y' | 'ÿ' => 'y'
  | 'À' => 'A' | 'Á' => 'A' | 'Â' => 'A' | 'Ã' => 'A' | 'Ä' => 'A' | 'Å' => 'A'
  | 'Ç' => 'C' | 'È' => 'E' | 'É' => 'E' | 'Ê' => 'E' | 'Ë' => 'E'
  | 'Ì' => 'I' | 'Í' => 'I' | 'Î' => 'I' | 'Ï' => 'I' | 'Ñ' => 'N'
  | 'Ò' => 'O' | 'Ó' => 'O' | 'Ô' => 'O' | 'Õ' => 'O' | 'Ö' => 'O'
  | 'Ù' => 'U' | 'Ú' => 'U' | 'Û' => 'U' | 'Ü' => 'U' | 'Ý' => 'Y'
  | c => c

/-- `LOWER` over a string. -/
def sqlLower (s : String) : String := ⟨s.data.map sqlLowerChar⟩

/-- `unaccent` over a string. -/
def unaccent (s : String) : String := ⟨s.data.map unaccentChar⟩

/-- `unaccent(LOWER(s))`, the normalization both sides of every text
filter go through. -/
def normalize (s : String) : String := unaccent (sqlLower s)

/-- Character-wise view of the normalization. -/
def normChar (c : Char) : Char := unaccentChar (sqlLowerChar c)

/-- One text filter literal:
`unaccent(LOWER(field)) like unaccent(LOWER(:query))` with `:query`
bound to `` `%${query}%` ``. -/
def textMatches (query field : String) : Bool :=
  likeMatch (normalize ("%" ++ query ++ "%")).data (normalize field).data

/-- The user text filter matches on email or name (in that order). -/
def userTextMatch (query : String) (u : User) : Bool :=
  textMatches query u.email || textMatches query u.name

/-! ## Where-clause construction

The handler builds `userWhere` / `groupWhere` by successive object
spreads; the only `id` clauses it ever writes are `id: actor.id`
(equality) and `id: { [Op.in]: ids }`. -/

/-- The `id` clause of a where object: absent, equality, or `Op.in`. -/
inductive IdClause where
  | always
  | eqId (id : Nat)
  | inIds (ids : List Nat)
deriving DecidableEq

def evalIdClause : IdClause → Nat → Bool
  | IdClause.always, _ => true
  | IdClause.eqId i, x => decide (x = i)
  | IdClause.inIds l, x => decide (x ∈ l)

/-- The shape of `userWhere`: `teamId` equality and `suspendedAt:
{ [Op.eq]: null }` are always present; `query` records the optional
`Op.and`/`Op.or` text-filter literals; `idClause` the optional scope
filter. -/
structure UserWhere where
  teamId : Nat
  query : Option String
  idClause : IdClause
deriving DecidableEq

def evalUserWhere (w : UserWhere) (u : User) : Bool :=
  decide (u.teamId = w.teamId) && decide (u.suspendedAt = none) &&
    (match w.query with
     | none => true
     | some q => userTextMatch q u) &&
    evalIdClause w.idClause u.id

/-- The shape of `groupWhere`: `teamId` equality and
`disableMentions: false` always present, optional text filter and
optional scope filter. -/
structure GroupWhere where
  teamId : Nat
  query : Option String
  idClause : IdClause
deriving DecidableEq

def evalGroupWhere (w : GroupWhere) (g : Group) : Bool :=
  decide (g.teamId = w.teamId) && decide (g.disableMentions = false) &&
    (match w.query with
     | none => true
     | some q => textMatches q g.name) &&
    evalIdClause w.idClause g.id

/-- `[...new Set(xs), y]`: a JS `Set` keeps the first occurrence of each
element in insertion order. -/
def jsSetDedupAux : List Nat → List Nat → List Nat
  | _, [] => []
  | seen, x :: xs =>
    if x ∈ seen then jsSetDedupAux seen xs
    else x :: jsSetDedupAux (x :: seen) xs

def jsSetDedup (l : List Nat) : List Nat := jsSetDedupAux [] l

/-- `allowedUserIds` in the restricted non-empty branch:
`[...new Set(groupUsers.map((gu) => gu.userId)), actor.id]` where
`groupUsers = GroupUser.findAll({ where: { groupId: { [Op.in]:
actorGroupIds } } })`. -/
def allowedUserIds (db : Database) (actor : Actor) : List Nat :=
  jsSetDedup
    ((db.groupUsers.filter
        (fun gu => decide (gu.groupId ∈ actorGroupIdsOf db actor))).map
      GroupUser.userId) ++ [actor.id]

/-- `userWhere` as finally passed to `User.findAll`, following the
handler's three-stage construction: base, optional text filter, and the
scope branches on `restrictDirectory` / `actorGroupIds.length`. -/
def buildUserWhere (db : Database) (actor : Actor) (query : String) :
    UserWhere :=
  let agids := actorGroupIdsOf db actor
  let w : UserWhere :=
    { teamId := actor.teamId
      query := if query = "" then none else some query
      idClause := IdClause.always }
  if restrictDirectory actor ∧ 0 < agids.length then
    { w with idClause := IdClause.inIds (allowedUserIds db actor) }
  else if restrictDirectory actor ∧ agids.length = 0 then
    { w with idClause := IdClause.eqId actor.id }
  else w

/-- `groupWhere` as finally passed to `Group.findAll`. -/
def buildGroupWhere (db : Database) (actor : Actor) (query : String) :
    GroupWhere :=
  let agids := actorGroupIdsOf db actor
  let w : GroupWhere :=
    { teamId := actor.teamId
      query := if query = "" then none else some query
      idClause := IdClause.always }
  if restrictDirectory actor ∧ 0 < agids.length then
    { w with idClause := IdClause.inIds agids }
  else if restrictDirectory actor ∧ agids.length = 0 then
    { w with idClause := IdClause.inIds [] }
  else w

/-! ## `findAll` with `order: [["name", "ASC"]]`, `offset`, `limit` -/

def insertUserByName (u : User) : List User → List User
  | [] => [u]
  | v :: vs =>
    if u.name ≤ v.name then u :: v :: vs else v :: insertUserByName u vs

/-- Insertion sort by name ascending (the embedding of
`order: [["name", "ASC"]]`; the claims below only depend on the sorted
output being a reordering). -/
def sortUsersByName (l : List User) : List User :=
  l.foldr insertUserByName []

def insertGroupByName (g : Group) : List Group → List Group
  | [] => [g]
  | v :: vs =>
    if g.name ≤ v.name then g :: v :: vs else v :: insertGroupByName g vs

def sortGroupsByName (l : List Group) : List Group :=
  l.foldr insertGroupByName []

/-- `User.findAll({ where: userWhere, order: [["name","ASC"]], offset,
limit })` for the `userWhere` built by the handler. -/
def mentionUsers (db : Database) (actor : Actor) (query : String)
    (offset limit : Nat) : List User :=
  ((sortUsersByName
      (db.users.filter (evalUserWhere (buildUserWhere db actor query)))).drop
    offset).take limit

/-- `Group.findAll({ where: groupWhere, order: [["name","ASC"]], offset,
limit })` for the `groupWhere` built by the handler. -/
def mentionGroups (db : Database) (actor : Actor) (query : String)
    (offset limit : Nat) : List Group :=
  ((sortGroupsByName
      (db.groups.filter (evalGroupWhere (buildGroupWhere db actor query)))).drop
    offset).take limit

/-! ## Assembly and fan-out -/

/-- `presentUser(user, { includeEmail, includeDetails })`: the presented
record together with the two policy-gated disclosure flags. -/
structure PresentedUser where
  user : User
  includeEmail : Bool
  includeDetails : Bool
deriving DecidableEq

def presentUser (canReadEmail canReadDetails : User → Bool) (u : User) :
    PresentedUser :=
  { user := u
    includeEmail := canReadEmail u
    includeDetails := canReadDetails u }

/-- The response envelope (`ctx.body`).  Documents and collections are
produced by external search collaborators and passed through; they are
embedded as opaque id lists. -/
structure Envelope where
  offset : Nat
  limit : Nat
  documents : List Nat
  users : List PresentedUser
  groups : List Group
  collections : List Nat
deriving DecidableEq

/-- The endpoint body after a successful fan-out: pagination metadata
plus the four presented result lists.  `canReadEmail`/`canReadDetails`
embed the external `can(actor, "readEmail"/"readDetails", user)` policy
checks, `docs`/`colls` the results of the external document/collection
search collaborators. -/
def suggestionsMention (db : Database)
    (canReadEmail canReadDetails : User → Bool) (docs colls : List Nat)
    (actor : Actor) (query : String) (offset limit : Nat) : Envelope :=
  { offset := offset
    limit := limit
    documents := docs
    users := (mentionUsers db actor query offset limit).map
      (presentUser canReadEmail canReadDetails)
    groups := mentionGroups db actor query offset limit
    collections := colls }

/-- `Promise.all` over the four lookups: all four must resolve before
the body is built; a rejection short-circuits the join with that
lookup's error. -/
def promiseAll4 {A B C D : Type} :
    Except String A → Except String B → Except String C →
      Except String D → Except String (A × B × C × D)
  | Except.error e, _, _, _ => Except.error e
  | Except.ok _, Except.error e, _, _ => Except.error e
  | Except.ok _, Except.ok _, Except.error e, _ => Except.error e
  | Except.ok _, Except.ok _, Except.ok _, Except.error e => Except.error e
  | Except.ok a, Except.ok b, Except.ok c, Except.ok d =>
    Except.ok (a, b, c, d)

/-- The fan-out stage with fallible lookups: each of the four lookup
results may be a `LookupFailure`; the body is only assembled from the
joined results. -/
def suggestionsMentionFallible
    (canReadEmail canReadDetails : User → Bool)
    (searchDocs : Except String (List Nat))
    (findUsers : Except String (List User))
    (findGroups : Except String (List Group))
    (searchColls : Except String (List Nat))
    (offset limit : Nat) : Except String Envelope :=
  (promiseAll4 searchDocs findUsers findGroups searchColls).map
    (fun r =>
      { offset := offset
        limit := limit
        documents := r.1
        users := r.2.1.map (presentUser canReadEmail canReadDetails)
        groups := r.2.2.1
        collections := r.2.2.2 })

/-! ## The spec-side substring matcher (for C6/C7) -/

/-- Is `q` a prefix of `s` (character lists)? -/
def listStartsWith : List Char → List Char → Bool
  | [], _ => true
  | _ :: _, [] => false
  | c :: q, c' :: s => decide (c' = c) && listStartsWith q s

/-- Does `s` contain `q` as a contiguous substring? -/
def listContainsSub (q : List Char) : List Char → Bool
  | [] => listStartsWith q []
  | c :: s => listStartsWith q (c :: s) || listContainsSub q s

/-- The matching the spec describes: "normalize by stripping diacritics
and lower-casing both sides, then substring match". -/
def substringMatchSpec (query field : String) : Bool :=
  listContainsSub (normalize query).data (normalize field).data

/-- A character with no special meaning in a LIKE pattern. -/
def cleanChar (c : Char) : Bool :=
  !(c == '%' || c == '_' || c == '\\')

/-! ## Theorems -/

/-- C3: directory restriction applies iff the actor's role is Viewer or
Guest and the team preference RestrictExternalDirectory is set to true;
Member/Admin actors are never restricted; a missing team or a missing
preference yields "not restricted". -/
theorem restrictDirectory_characterization (a : Actor) :
    (restrictDirectory a = true ↔
      ((a.role = UserRole.viewer ∨ a.role = UserRole.guest) ∧
        ∃ t, a.team = some t ∧ t.restrictExternalDirectory = some true)) ∧
    ((a.role = UserRole.member ∨ a.role = UserRole.admin) →
      restrictDirectory a = false) ∧
    (a.team = none → restrictDirectory a = false) ∧
    (∀ t, a.team = some t → t.restrictExternalDirectory = none →
      restrictDirectory a = false) := by
  obtain ⟨id, teamId, role, team⟩ := a
  refine ⟨?_, ?_, ?_, ?_⟩
  · cases role <;> cases team <;>
      simp_all [restrictDirectory, Actor.isViewer, Actor.isGuest,
        Team.getRestrictExternalDirectory] <;>
    · rename_i t
      obtain ⟨p⟩ := t
      cases p with
      | none => simp
      | some b => cases b <;> simp
  · rintro (h | h) <;> subst h <;>
      simp [restrictDirectory, Actor.isViewer, Actor.isGuest]
  · rintro rfl
    cases role <;> simp [restrictDirectory, Actor.isViewer, Actor.isGuest]
  · rintro t rfl hp
    cases role <;>
      simp [restrictDirectory, Actor.isViewer, Actor.isGuest,
        Team.getRestrictExternalDirectory, hp]

/-- Witness for C3: a Viewer with the preference enabled is restricted,
obtained through the characterization. -/
theorem restrictDirectory_characterization_witness :
    restrictDirectory ⟨1, 1, UserRole.viewer, some ⟨some true⟩⟩ = true :=
  (restrictDirectory_characterization
      ⟨1, 1, UserRole.viewer, some ⟨some true⟩⟩).1.mpr
    ⟨Or.inl rfl, ⟨some true⟩, rfl, rfl⟩

/-- The fuel argument is irrelevant as long as it exceeds
`p.length + s.length`. -/
theorem likeMatchF_congr :
    ∀ f g p s, p.length + s.length < f → p.length + s.length < g →
      likeMatchF f p s = likeMatchF g p s := by
  intro f
  induction f with
  | zero => intro g p s hf _; omega
  | succ f ih =>
    intro g p s hf hg
    match g, hg with
    | g + 1, hg =>
      match p with
      | [] => rfl
      | c :: p =>
        simp only [List.length_cons] at hf hg
        simp only [likeMatchF]
        split_ifs
        · cases s with
          | nil =>
            show (likeMatchF f p [] || false) = (likeMatchF g p [] || false)
            rw [ih g p [] (by simp at hf ⊢; omega) (by simp at hg ⊢; omega)]
          | cons a s' =>
            show (likeMatchF f p (a :: s') || likeMatchF f (c :: p) s')
                = (likeMatchF g p (a :: s') || likeMatchF g (c :: p) s')
            rw [ih g p (a :: s') (by simp at hf ⊢; omega) (by simp at hg ⊢; omega),
              ih g (c :: p) s' (by simp at hf ⊢; omega) (by simp at hg ⊢; omega)]
        · cases s with
          | nil => rfl
          | cons a s' =>
            show likeMatchF f p s' = likeMatchF g p s'
            exact ih g p s' (by simp at hf ⊢; omega) (by simp at hg ⊢; omega)
        · cases p with
          | nil => rfl
          | cons c₂ p' =>
            cases s with
            | nil => rfl
            | cons c' s' =>
              show (decide (c' = c₂) && likeMatchF f p' s')
                  = (decide (c' = c₂) && likeMatchF g p' s')
              rw [ih g p' s' (by simp at hf ⊢; omega) (by simp at hg ⊢; omega)]
        · cases s with
          | nil => rfl
          | cons c' s' =>
            show (decide (c' = c) && likeMatchF f p s')
                = (decide (c' = c) && likeMatchF g p s')
            rw [ih g p s' (by simp at hf ⊢; omega) (by simp at hg ⊢; omega)]

/-- Any sufficiently large fuel computes `likeMatch`. -/
theorem likeMatchF_eq_likeMatch (f : Nat) (p s : List Char)
    (h : p.length + s.length < f) : likeMatchF f p s = likeMatch p s :=
  likeMatchF_congr f (p.length + s.length + 1) p s h (by omega)

theorem likeMatch_nil (s : List Char) : likeMatch [] s = s.isEmpty := rfl

theorem likeMatch_percent_nil (p : List Char) :
    likeMatch ('%' :: p) [] = likeMatch p [] :=
  calc likeMatch ('%' :: p) []
      = (likeMatchF (('%' :: p).length + ([] : List Char).length) p [] || false) :=
        rfl
    _ = likeMatch p [] := by
        rw [likeMatchF_eq_likeMatch (('%' :: p).length + ([] : List Char).length)
          p [] (by simp)]
        simp

theorem likeMatch_percent_cons (p : List Char) (c : Char) (s : List Char) :
    likeMatch ('%' :: p) (c :: s) =
      (likeMatch p (c :: s) || likeMatch ('%' :: p) s) :=
  calc likeMatch ('%' :: p) (c :: s)
      = (likeMatchF (('%' :: p).length + (c :: s).length) p (c :: s) ||
          likeMatchF (('%' :: p).length + (c :: s).length) ('%' :: p) s) := rfl
    _ = _ := by
        rw [likeMatchF_eq_likeMatch (('%' :: p).length + (c :: s).length)
            p (c :: s) (by simp),
          likeMatchF_eq_likeMatch (('%' :: p).length + (c :: s).length)
            ('%' :: p) s (by simp)]

theorem likeMatch_underscore_nil (p : List Char) :
    likeMatch ('_' :: p) [] = false := rfl

theorem likeMatch_underscore_cons (p : List Char) (c : Char) (s : List Char) :
    likeMatch ('_' :: p) (c :: s) = likeMatch p s :=
  calc likeMatch ('_' :: p) (c :: s)
      = likeMatchF (('_' :: p).length + (c :: s).length) p s := rfl
    _ = likeMatch p s :=
        likeMatchF_eq_likeMatch (('_' :: p).length + (c :: s).length) p s
          (by simp; omega)

theorem likeMatch_lit_nil (c : Char) (p : List Char)
    (h1 : c ≠ '%') (h2 : c ≠ '_') : likeMatch (c :: p) [] = false := by
  show likeMatchF ((c :: p).length + ([] : List Char).length + 1) (c :: p) [] = false
  simp only [likeMatchF, if_neg h1, if_neg h2]
  split_ifs
  · cases p <;> rfl
  · rfl

theorem likeMatch_lit_cons (c : Char) (p : List Char) (c' : Char) (s : List Char)
    (h1 : c ≠ '%') (h2 : c ≠ '_') (h3 : c ≠ '\\') :
    likeMatch (c :: p) (c' :: s) = (decide (c' = c) && likeMatch p s) := by
  show likeMatchF ((c :: p).length + (c' :: s).length + 1) (c :: p) (c' :: s) = _
  simp only [likeMatchF, if_neg h1, if_neg h2, if_neg h3]
  rw [likeMatchF_eq_likeMatch ((c :: p).length + (c' :: s).length) p s
    (by simp; omega)]

theorem normalize_data (s : String) :
    (normalize s).data = s.data.map normChar := by
  simp [normalize, unaccent, sqlLower, normChar, Function.comp]

/-! ## Membership helpers -/

theorem mem_insertUserByName (u x : User) (l : List User) :
    x ∈ insertUserByName u l ↔ x = u ∨ x ∈ l := by
  induction l with
  | nil => simp [insertUserByName]
  | cons v vs ih =>
    simp only [insertUserByName]
    split_ifs <;> (simp [ih]; try tauto)

theorem mem_sortUsersByName (x : User) (l : List User) :
    x ∈ sortUsersByName l ↔ x ∈ l := by
  induction l with
  | nil => simp [sortUsersByName]
  | cons v vs ih =>
    simp only [sortUsersByName, List.foldr_cons]
    rw [mem_insertUserByName]
    simp only [sortUsersByName] at ih
    simp [ih]

theorem mem_insertGroupByName (g x : Group) (l : List Group) :
    x ∈ insertGroupByName g l ↔ x = g ∨ x ∈ l := by
  induction l with
  | nil => simp [insertGroupByName]
  | cons v vs ih =>
    simp only [insertGroupByName]
    split_ifs <;> (simp [ih]; try tauto)

theorem mem_sortGroupsByName (x : Group) (l : List Group) :
    x ∈ sortGroupsByName l ↔ x ∈ l := by
  induction l with
  | nil => simp [sortGroupsByName]
  | cons v vs ih =>
    simp only [sortGroupsByName, List.foldr_cons]
    rw [mem_insertGroupByName]
    simp only [sortGroupsByName] at ih
    simp [ih]

/-- A user in the `findAll` output is a stored row satisfying the built
where-clause. -/
theorem mem_mentionUsers {db : Database} {actor : Actor} {query : String}
    {offset limit : Nat} {u : User}
    (h : u ∈ mentionUsers db actor query offset limit) :
    u ∈ db.users ∧ evalUserWhere (buildUserWhere db actor query) u = true := by
  have h1 := List.mem_of_mem_drop (List.mem_of_mem_take h)
  rw [mem_sortUsersByName] at h1
  exact ⟨(List.mem_filter.mp h1).1, (List.mem_filter.mp h1).2⟩

/-- A group in the `findAll` output is a stored row satisfying the built
where-clause. -/
theorem mem_mentionGroups {db : Database} {actor : Actor} {query : String}
    {offset limit : Nat} {g : Group}
    (h : g ∈ mentionGroups db actor query offset limit) :
    g ∈ db.groups ∧ evalGroupWhere (buildGroupWhere db actor query) g = true := by
  have h1 := List.mem_of_mem_drop (List.mem_of_mem_take h)
  rw [mem_sortGroupsByName] at h1
  exact ⟨(List.mem_filter.mp h1).1, (List.mem_filter.mp h1).2⟩

theorem mem_jsSetDedupAux {x : Nat} :
    ∀ {seen l : List Nat}, x ∈ jsSetDedupAux seen l → x ∈ l := by
  intro seen l
  induction l generalizing seen with
  | nil => simp [jsSetDedupAux]
  | cons a as ih =>
    simp only [jsSetDedupAux]
    split_ifs with ha
    · intro h
      exact List.mem_cons_of_mem a (ih h)
    · intro h
      rcases List.mem_cons.mp h with h | h
      · exact h ▸ List.mem_cons_self a as
      · exact List.mem_cons_of_mem a (ih h)

/-- C5: for every query and every scope decision, a suspended user never
appears in the returned user result set: the base `userWhere` always
carries `suspendedAt: { [Op.eq]: null }`. -/
theorem mention_users_never_suspended (db : Database)
    (canReadEmail canReadDetails : User → Bool) (docs colls : List Nat)
    (actor : Actor) (query : String) (offset limit : Nat) :
    ∀ pu ∈ (suggestionsMention db canReadEmail canReadDetails docs colls
        actor query offset limit).users,
      pu.user.suspendedAt = none := by
  intro pu hpu
  simp only [suggestionsMention, List.mem_map] at hpu
  obtain ⟨u, hu, rfl⟩ := hpu
  have h2 := (mem_mentionUsers hu).2
  simp only [evalUserWhere, Bool.and_eq_true, decide_eq_true_eq] at h2
  exact h2.1.1.2

/-- Witness for C5: in a concrete database holding one active and one
suspended user, the returned record (alice, presented) is unsuspended. -/
theorem mention_users_never_suspended_witness :
    (⟨⟨1, 1, "alice", "alice@example.com", none⟩, false, false⟩ :
        PresentedUser).user.suspendedAt = none :=
  mention_users_never_suspended
    ⟨[⟨1, 1, "alice", "alice@example.com", none⟩,
      ⟨2, 1, "zoe", "zoe@example.com", some 5⟩], [], []⟩
    (fun _ => false) (fun _ => false) [] []
    ⟨1, 1, UserRole.member, none⟩ "" 0 10
    ⟨⟨1, 1, "alice", "alice@example.com", none⟩, false, false⟩ (by decide)

/-- C4: for every query and every scope decision, a group whose
`disableMentions` flag is set never appears in the returned group result
set: the base `groupWhere` always carries `disableMentions: false`. -/
theorem mention_groups_never_disabled (db : Database)
    (canReadEmail canReadDetails : User → Bool) (docs colls : List Nat)
    (actor : Actor) (query : String) (offset limit : Nat) :
    ∀ g ∈ (suggestionsMention db canReadEmail canReadDetails docs colls
        actor query offset limit).groups,
      g.disableMentions = false := by
  intro g hg
  have h2 := (mem_mentionGroups hg).2
  simp only [evalGroupWhere, Bool.and_eq_true, decide_eq_true_eq] at h2
  exact h2.1.1.2

/-- Witness for C4: concrete database with one mentionable and one
mention-disabled group; the returned group has the flag off. -/
theorem mention_groups_never_disabled_witness :
    (⟨10, 1, "dev", false⟩ : Group).disableMentions = false :=
  mention_groups_never_disabled
    ⟨[], [⟨10, 1, "dev", false⟩, ⟨11, 1, "ops", true⟩], []⟩
    (fun _ => false) (fun _ => false) [] []
    ⟨1, 1, UserRole.member, none⟩ "" 0 10
    ⟨10, 1, "dev", false⟩ (by decide)

/-- C2: for a restricted actor (Viewer/Guest with the preference on)
with a non-empty group set `G`, every returned user is the actor or a
member of some group of `G`, and every returned group is an element of
`G`. -/
theorem mention_restricted_scope (db : Database)
    (canReadEmail canReadDetails : User → Bool) (docs colls : List Nat)
    (actor : Actor) (query : String) (offset limit : Nat)
    (hres : restrictDirectory actor = true)
    (hne : groupIdsOf db actor.id ≠ []) :
    (∀ pu ∈ (suggestionsMention db canReadEmail canReadDetails docs colls
        actor query offset limit).users,
      pu.user.id = actor.id ∨
        ∃ gu ∈ db.groupUsers, gu.userId = pu.user.id ∧
          gu.groupId ∈ groupIdsOf db actor.id) ∧
    (∀ g ∈ (suggestionsMention db canReadEmail canReadDetails docs colls
        actor query offset limit).groups,
      g.id ∈ groupIdsOf db actor.id) := by
  have hag : actorGroupIdsOf db actor = groupIdsOf db actor.id := by
    simp [actorGroupIdsOf, hres]
  have hcond : restrictDirectory actor = true ∧
      0 < (actorGroupIdsOf db actor).length :=
    ⟨hres, by rw [hag]; exact List.length_pos.mpr hne⟩
  constructor
  · intro pu hpu
    simp only [suggestionsMention, List.mem_map] at hpu
    obtain ⟨u, hu, rfl⟩ := hpu
    have h2 := (mem_mentionUsers hu).2
    rw [buildUserWhere, if_pos hcond] at h2
    simp only [evalUserWhere, evalIdClause, Bool.and_eq_true,
      decide_eq_true_eq] at h2
    have hin : u.id ∈ allowedUserIds db actor := h2.2
    rcases List.mem_append.mp hin with hin | hin
    · right
      have hin'' : u.id ∈ jsSetDedupAux []
          ((db.groupUsers.filter
              (fun gu => decide (gu.groupId ∈ actorGroupIdsOf db actor))).map
            GroupUser.userId) := hin
      have hin' := mem_jsSetDedupAux hin''
      obtain ⟨gu, hgu, hgid⟩ := List.mem_map.mp hin'
      refine ⟨gu, (List.mem_filter.mp hgu).1, hgid, ?_⟩
      have := (List.mem_filter.mp hgu).2
      rw [hag] at this
      simpa using this
    · left
      simpa [presentUser] using List.mem_singleton.mp hin
  · intro g hg
    have h2 := (mem_mentionGroups hg).2
    rw [buildGroupWhere, if_pos hcond] at h2
    simp only [evalGroupWhere, evalIdClause, Bool.and_eq_true,
      decide_eq_true_eq] at h2
    rw [hag] at h2
    exact h2.2

/-- Witness for C2: the spec's scenario — a restricted Viewer in group
20 (members: the actor and user 2); the returned group 20 is indeed one
of the actor's groups. -/
theorem mention_restricted_scope_witness :
    (⟨20, 1, "G1", false⟩ : Group).id ∈
      groupIdsOf
        ⟨[⟨1, 1, "viewer", "v@example.com", none⟩,
          ⟨2, 1, "u2", "u2@example.com", none⟩,
          ⟨3, 1, "other", "o@example.com", none⟩],
         [⟨20, 1, "G1", false⟩, ⟨21, 1, "G2", false⟩],
         [⟨20, 1⟩, ⟨20, 2⟩, ⟨21, 3⟩]⟩ 1 :=
  (mention_restricted_scope
    ⟨[⟨1, 1, "viewer", "v@example.com", none⟩,
      ⟨2, 1, "u2", "u2@example.com", none⟩,
      ⟨3, 1, "other", "o@example.com", none⟩],
     [⟨20, 1, "G1", false⟩, ⟨21, 1, "G2", false⟩],
     [⟨20, 1⟩, ⟨20, 2⟩, ⟨21, 3⟩]⟩
    (fun _ => false) (fun _ => false) [] []
    ⟨1, 1, UserRole.viewer, some ⟨some true⟩⟩ "" 0 10
    (by decide) (by decide)).2
    ⟨20, 1, "G1", false⟩ (by decide)

/-- C10: under every scope decision the built user predicate accepts the
requesting actor's own record as soon as it passes the base and text
filters: the scope filter's id clause always contains `actor.id`. -/
theorem userWhere_never_excludes_actor (db : Database) (actor : Actor)
    (query : String) (u : User) (hid : u.id = actor.id)
    (hbt : evalUserWhere
      { buildUserWhere db actor query with idClause := IdClause.always } u
        = true) :
    evalIdClause (buildUserWhere db actor query).idClause actor.id = true ∧
    evalUserWhere (buildUserWhere db actor query) u = true := by
  have hidc :
      evalIdClause (buildUserWhere db actor query).idClause actor.id = true := by
    rw [buildUserWhere]
    split_ifs <;> simp [evalIdClause, allowedUserIds]
  refine ⟨hidc, ?_⟩
  simp only [evalUserWhere, Bool.and_eq_true] at hbt ⊢
  exact ⟨hbt.1, hid ▸ hidc⟩

/-- Witness for C10: a restricted Guest with no groups still satisfies
the final user predicate on their own record. -/
theorem userWhere_never_excludes_actor_witness :
    evalUserWhere
      (buildUserWhere ⟨[⟨1, 1, "guest", "g@example.com", none⟩], [], []⟩
        ⟨1, 1, UserRole.guest, some ⟨some true⟩⟩ "gue")
      ⟨1, 1, "guest", "g@example.com", none⟩ = true :=
  (userWhere_never_excludes_actor
    ⟨[⟨1, 1, "guest", "g@example.com", none⟩], [], []⟩
    ⟨1, 1, UserRole.guest, some ⟨some true⟩⟩ "gue"
    ⟨1, 1, "guest", "g@example.com", none⟩ (by decide) (by decide)).2

/-- Filtering a list whose ids are pairwise distinct by a predicate that
holds of `u` and forces `id = u.id` yields exactly `[u]`. -/
theorem filter_singleton_of_nodup {l : List User} {p : User → Bool} {u : User}
    (hn : (l.map User.id).Nodup) (hu : u ∈ l) (hpu : p u = true)
    (hid : ∀ x, p x = true → x.id = u.id) : l.filter p = [u] := by
  induction l with
  | nil => cases hu
  | cons x xs ih =>
    rw [List.map_cons, List.nodup_cons] at hn
    rcases List.mem_cons.mp hu with rfl | hu'
    · rw [List.filter_cons_of_pos hpu]
      have hnil : xs.filter p = [] := by
        rw [List.filter_eq_nil_iff]
        intro y hy hpy
        exact hn.1 (List.mem_map.mpr ⟨y, hy, hid y hpy⟩)
      rw [hnil]
    · have hpx : p x = false := by
        rcases hpx : p x with _ | _
        · rfl
        · exact absurd (List.mem_map.mpr ⟨u, hu', (hid x hpx).symm⟩) hn.1
      rw [List.filter_cons_of_neg (by simp [hpx])]
      exact ih hn.2 hu'

/-- Counterexample to C1 as stated: a restricted Viewer with no groups,
whose (unsuspended, same-team) record is in the store, gets an empty
user result set for the query `"zzz"` — the result is not `{actor}`
independent of the query text, because the text filter conjoins with the
`id: actor.id` scope clause. -/
theorem mention_restricted_no_groups_query_dependent :
    restrictDirectory ⟨1, 1, UserRole.viewer, some ⟨some true⟩⟩ = true ∧
    groupIdsOf ⟨[⟨1, 1, "alice", "alice@example.com", none⟩], [], []⟩ 1 = [] ∧
    (⟨1, 1, "alice", "alice@example.com", none⟩ : User) ∈
      (⟨[⟨1, 1, "alice", "alice@example.com", none⟩], [], []⟩ : Database).users ∧
    (suggestionsMention ⟨[⟨1, 1, "alice", "alice@example.com", none⟩], [], []⟩
        (fun _ => false) (fun _ => false) [] []
        ⟨1, 1, UserRole.viewer, some ⟨some true⟩⟩ "zzz" 0 10).users = [] ∧
    (suggestionsMention ⟨[⟨1, 1, "alice", "alice@example.com", none⟩], [], []⟩
        (fun _ => false) (fun _ => false) [] []
        ⟨1, 1, UserRole.viewer, some ⟨some true⟩⟩ "ali" 0 10).users
      = [⟨⟨1, 1, "alice", "alice@example.com", none⟩, false, false⟩] := by
  decide

/-- C1 (amended): for a restricted actor with no groups the group result
set is always empty and the user result set contains at most the actor's
own record; it is exactly that record when the record is stored with
distinct ids, passes the base and text filters, and the pagination
window admits it. -/
theorem mention_restricted_no_groups (db : Database)
    (canReadEmail canReadDetails : User → Bool) (docs colls : List Nat)
    (actor : Actor) (query : String) (offset limit : Nat)
    (hres : restrictDirectory actor = true)
    (hemp : groupIdsOf db actor.id = []) :
    (∀ pu ∈ (suggestionsMention db canReadEmail canReadDetails docs colls
        actor query offset limit).users, pu.user.id = actor.id) ∧
    (suggestionsMention db canReadEmail canReadDetails docs colls
      actor query offset limit).groups = [] ∧
    (∀ urec : User, urec ∈ db.users → urec.id = actor.id →
      (db.users.map User.id).Nodup →
      evalUserWhere
        { buildUserWhere db actor query with idClause := IdClause.always }
        urec = true →
      0 < limit →
      (suggestionsMention db canReadEmail canReadDetails docs colls
        actor query 0 limit).users
        = [presentUser canReadEmail canReadDetails urec]) := by
  have hag : actorGroupIdsOf db actor = [] := by
    simp [actorGroupIdsOf, hres, hemp]
  have hw : buildUserWhere db actor query =
      { teamId := actor.teamId
        query := if query = "" then none else some query
        idClause := IdClause.eqId actor.id } := by
    rw [buildUserWhere]
    rw [if_neg (by rw [hag]; simp), if_pos ⟨hres, by rw [hag]; rfl⟩]
  have hgw : buildGroupWhere db actor query =
      { teamId := actor.teamId
        query := if query = "" then none else some query
        idClause := IdClause.inIds [] } := by
    rw [buildGroupWhere]
    rw [if_neg (by rw [hag]; simp), if_pos ⟨hres, by rw [hag]; rfl⟩]
  refine ⟨?_, ?_, ?_⟩
  · intro pu hpu
    simp only [suggestionsMention, List.mem_map] at hpu
    obtain ⟨u, hu, rfl⟩ := hpu
    have h2 := (mem_mentionUsers hu).2
    rw [hw] at h2
    simp only [evalUserWhere, evalIdClause, Bool.and_eq_true,
      decide_eq_true_eq] at h2
    simpa [presentUser] using h2.2
  · show mentionGroups db actor query offset limit = []
    rw [mentionGroups]
    have hnil : db.groups.filter
        (evalGroupWhere (buildGroupWhere db actor query)) = [] := by
      rw [List.filter_eq_nil_iff]
      intro g _
      rw [hgw]
      simp [evalGroupWhere, evalIdClause]
    rw [hnil]
    simp [sortGroupsByName]
  · intro urec hmem hid hnodup hbt hlim
    show (mentionUsers db actor query 0 limit).map
        (presentUser canReadEmail canReadDetails) = _
    have hfilter : db.users.filter
        (evalUserWhere (buildUserWhere db actor query)) = [urec] := by
      apply filter_singleton_of_nodup hnodup hmem
      · rw [hw]
        rw [hw] at hbt
        simp only [evalUserWhere, evalIdClause, Bool.and_eq_true,
          decide_eq_true_eq] at hbt ⊢
        exact ⟨hbt.1, hid⟩
      · intro x hx
        rw [hw] at hx
        simp only [evalUserWhere, evalIdClause, Bool.and_eq_true,
          decide_eq_true_eq] at hx
        rw [hx.2, hid]
    rw [mentionUsers, hfilter]
    have hsort : sortUsersByName [urec] = [urec] := rfl
    rw [hsort, List.drop_zero]
    match limit, hlim with
    | n + 1, _ => simp

/-- Witness for C1 (amended): concrete restricted Guest with no groups;
only their own (matching) record is returned, and no groups. -/
theorem mention_restricted_no_groups_witness :
    (suggestionsMention ⟨[⟨1, 1, "gina", "gina@example.com", none⟩,
        ⟨2, 1, "bob", "bob@example.com", none⟩], [⟨30, 1, "dev", false⟩], []⟩
      (fun _ => true) (fun _ => false) [] []
      ⟨1, 1, UserRole.guest, some ⟨some true⟩⟩ "gi" 0 10).users
      = [⟨⟨1, 1, "gina", "gina@example.com", none⟩, true, false⟩] :=
  (mention_restricted_no_groups
    ⟨[⟨1, 1, "gina", "gina@example.com", none⟩,
      ⟨2, 1, "bob", "bob@example.com", none⟩], [⟨30, 1, "dev", false⟩], []⟩
    (fun _ => true) (fun _ => false) [] []
    ⟨1, 1, UserRole.guest, some ⟨some true⟩⟩ "gi" 0 10
    (by decide) (by decide)).2.2
    ⟨1, 1, "gina", "gina@example.com", none⟩
    (by decide) (by decide) (by decide) (by decide) (by decide)

set_option maxHeartbeats 1600000 in
/-- Normalization never introduces LIKE metacharacters. -/
theorem cleanChar_normChar {c : Char} (h : cleanChar c = true) :
    cleanChar (normChar c) = true := by
  unfold normChar sqlLowerChar
  split
  all_goals
    first
    | decide
    | (unfold unaccentChar
       split <;> first | decide | exact h)

theorem likeMatch_single_percent : ∀ s : List Char, likeMatch ['%'] s = true := by
  intro s
  induction s with
  | nil => rw [likeMatch_percent_nil, likeMatch_nil]; rfl
  | cons c s ih => rw [likeMatch_percent_cons, ih, likeMatch_nil]; simp

/-- A pattern `q ++ ['%']` with `q` clean matches exactly the strings
with prefix `q`. -/
theorem likeMatch_append_percent (q : List Char)
    (hq : q.all cleanChar = true) :
    ∀ s, likeMatch (q ++ ['%']) s = listStartsWith q s := by
  induction q with
  | nil =>
    intro s
    rw [List.nil_append, likeMatch_single_percent]
    rfl
  | cons c q ih =>
    rw [List.all_cons, Bool.and_eq_true] at hq
    have hc : c ≠ '%' ∧ c ≠ '_' ∧ c ≠ '\\' := by
      have h1 := hq.1
      simp [cleanChar] at h1
      tauto
    intro s
    cases s with
    | nil =>
      rw [List.cons_append, likeMatch_lit_nil c _ hc.1 hc.2.1]
      rfl
    | cons c' s' =>
      rw [List.cons_append, likeMatch_lit_cons c _ c' s' hc.1 hc.2.1 hc.2.2,
        ih hq.2 s']
      rfl

/-- A pattern `'%' :: q ++ ['%']` with `q` clean matches exactly the
strings containing `q`. -/
theorem likeMatch_infix_pattern (q : List Char) (hq : q.all cleanChar = true) :
    ∀ s, likeMatch ('%' :: (q ++ ['%'])) s = listContainsSub q s := by
  intro s
  induction s with
  | nil =>
    rw [likeMatch_percent_nil, likeMatch_append_percent q hq]
    rfl
  | cons c s ih =>
    rw [likeMatch_percent_cons, likeMatch_append_percent q hq, ih]
    rfl

theorem normChar_percent : normChar '%' = '%' := rfl

/-- The normalized `%query%` pattern decomposes around the normalized
query. -/
theorem normalize_pattern (q : String) :
    (normalize ("%" ++ q ++ "%")).data
      = '%' :: ((normalize q).data ++ ['%']) := by
  obtain ⟨l⟩ := q
  rw [normalize_data, normalize_data]
  show List.map normChar ('%' :: (l ++ ['%'])) = _
  rw [List.map_cons, List.map_append, normChar_percent]
  rfl

/-- For queries free of LIKE metacharacters the text filter is exactly
the spec's normalized substring match. -/
theorem textMatches_eq_substring (q s : String)
    (hq : q.data.all cleanChar = true) :
    textMatches q s = substringMatchSpec q s := by
  rw [textMatches, substringMatchSpec, normalize_pattern]
  apply likeMatch_infix_pattern
  rw [normalize_data]
  rw [List.all_eq_true] at hq ⊢
  intro c hc
  obtain ⟨c₀, hc₀, rfl⟩ := List.mem_map.mp hc
  exact cleanChar_normChar (hq c₀ hc₀)

/-- Counterexample to C6 as stated: the text filter is not plain
normalized substring matching — the query `"_"` matches the name
`"x"` although `"_"` is not a substring of it, because `_` is passed to
LIKE unescaped and acts as a single-character wildcard. -/
theorem text_filter_not_plain_substring :
    textMatches "_" "x" = true ∧ substringMatchSpec "_" "x" = false := by
  decide

/-- C6 (amended): the text filter is applied only for a non-empty query;
both sides are normalized (diacritics stripped, lower-cased) and
compared with SQL LIKE against the `%query%` pattern, in which `%`, `_`
and `\` coming from the query act as wildcards/escape; for queries
containing none of those characters this is exactly normalized substring
matching (for users against name and email, for groups against name);
in particular `"jose"` matches `"José"`. -/
theorem text_filter_semantics :
    (∀ db actor, (buildUserWhere db actor "").query = none ∧
      (buildGroupWhere db actor "").query = none) ∧
    (∀ db actor q, q ≠ "" → (buildUserWhere db actor q).query = some q ∧
      (buildGroupWhere db actor q).query = some q) ∧
    (∀ q s, q.data.all cleanChar = true →
      textMatches q s = substringMatchSpec q s) ∧
    (∀ q u, userTextMatch q u
      = (textMatches q u.email || textMatches q u.name)) ∧
    textMatches "jose" "José" = true ∧
    textMatches "JOSE" "josé" = true := by
  have hu : ∀ db actor q, (buildUserWhere db actor q).query
      = (if q = "" then none else some q) := by
    intro db actor q
    rw [buildUserWhere]
    split_ifs <;> rfl
  have hg : ∀ db actor q, (buildGroupWhere db actor q).query
      = (if q = "" then none else some q) := by
    intro db actor q
    rw [buildGroupWhere]
    split_ifs <;> rfl
  refine ⟨?_, ?_, ?_, ?_, by decide, by decide⟩
  · intro db actor
    rw [hu, hg]
    simp
  · intro db actor q hq
    rw [hu, hg]
    simp [hq]
  · exact textMatches_eq_substring
  · intro q u
    rfl

/-- Witness for C6: the clean query `"jose"` agrees with the spec's
substring matcher on the stored name `"Josefina"`. -/
theorem text_filter_semantics_witness :
    textMatches "jose" "Josefina" = substringMatchSpec "jose" "Josefina" :=
  text_filter_semantics.2.2.1 "jose" "Josefina" (by decide)

/-! ## C7: the pathological query `"%"` -/

theorem likeMatch_percent_of_match {p s : List Char}
    (h : likeMatch p s = true) : likeMatch ('%' :: p) s = true := by
  cases s with
  | nil => rw [likeMatch_percent_nil]; exact h
  | cons c s' => rw [likeMatch_percent_cons, h]; rfl

/-- Counterexample to C7 as stated: the query `"%"` is interpolated
unescaped into the LIKE pattern, so it acts as a match-anything
wildcard, not as an ordinary substring character: the user `bob`
is returned although neither his name nor his email contains `"%"`. -/
theorem percent_query_is_wildcard :
    (suggestionsMention ⟨[⟨1, 1, "bob", "bob@example.com", none⟩], [], []⟩
        (fun _ => false) (fun _ => false) [] []
        ⟨1, 1, UserRole.member, none⟩ "%" 0 10).users
      = [⟨⟨1, 1, "bob", "bob@example.com", none⟩, false, false⟩] ∧
    substringMatchSpec "%" "bob" = false ∧
    substringMatchSpec "%" "bob@example.com" = false := by
  decide

/-- C7 (amended): the query `"%"` cannot crash the endpoint (the
handler is a total function) and the user/group result sets stay
bounded by `limit`; however `%` is passed to LIKE unescaped, so the text
filter accepts every user and group rather than only those whose
name/email contain a literal `%`. -/
theorem percent_query_bounded :
    (∀ s : String, textMatches "%" s = true) ∧
    (∀ db canReadEmail canReadDetails docs colls actor offset limit,
      (suggestionsMention db canReadEmail canReadDetails docs colls actor
          "%" offset limit).users.length ≤ limit ∧
      (suggestionsMention db canReadEmail canReadDetails docs colls actor
          "%" offset limit).groups.length ≤ limit) := by
  constructor
  · intro s
    rw [textMatches]
    show likeMatch ['%', '%', '%'] (normalize s).data = true
    exact likeMatch_percent_of_match
      (likeMatch_percent_of_match (likeMatch_single_percent _))
  · intro db canReadEmail canReadDetails docs colls actor offset limit
    constructor
    · show ((mentionUsers db actor "%" offset limit).map _).length ≤ limit
      rw [List.length_map, mentionUsers, List.length_take]
      omega
    · show (mentionGroups db actor "%" offset limit).length ≤ limit
      rw [mentionGroups, List.length_take]
      omega

/-! ## C8: join-barrier failure semantics -/

/-- C8: if any of the four fan-out lookups fails, the whole request
fails with the error of the first (in the `Promise.all` tuple order)
failing lookup; no partial envelope is produced. -/
theorem fanout_fails_atomically
    (canReadEmail canReadDetails : User → Bool)
    (sd : Except String (List Nat)) (fu : Except String (List User))
    (fg : Except String (List Group)) (sc : Except String (List Nat))
    (offset limit : Nat)
    (h : (∃ e, sd = Except.error e) ∨ (∃ e, fu = Except.error e) ∨
      (∃ e, fg = Except.error e) ∨ (∃ e, sc = Except.error e)) :
    ∃ e, suggestionsMentionFallible canReadEmail canReadDetails
        sd fu fg sc offset limit = Except.error e ∧
      (sd = Except.error e ∨
        ((∃ a, sd = Except.ok a) ∧ fu = Except.error e) ∨
        ((∃ a, sd = Except.ok a) ∧ (∃ b, fu = Except.ok b) ∧
          fg = Except.error e) ∨
        ((∃ a, sd = Except.ok a) ∧ (∃ b, fu = Except.ok b) ∧
          (∃ c, fg = Except.ok c) ∧ sc = Except.error e)) := by
  cases sd with
  | error e => exact ⟨e, rfl, Or.inl rfl⟩
  | ok a =>
    cases fu with
    | error e => exact ⟨e, rfl, Or.inr (Or.inl ⟨⟨a, rfl⟩, rfl⟩)⟩
    | ok b =>
      cases fg with
      | error e =>
        exact ⟨e, rfl, Or.inr (Or.inr (Or.inl ⟨⟨a, rfl⟩, ⟨b, rfl⟩, rfl⟩))⟩
      | ok c =>
        cases sc with
        | error e =>
          exact ⟨e, rfl,
            Or.inr (Or.inr (Or.inr ⟨⟨a, rfl⟩, ⟨b, rfl⟩, ⟨c, rfl⟩, rfl⟩))⟩
        | ok d =>
          exfalso
          rcases h with ⟨e, he⟩ | ⟨e, he⟩ | ⟨e, he⟩ | ⟨e, he⟩ <;>
            exact Except.noConfusion he

/-- Witness for C8: a failing user lookup aborts the whole request with
its error, even though the three other lookups succeeded. -/
theorem fanout_fails_atomically_witness :
    suggestionsMentionFallible (fun _ => false) (fun _ => false)
      (Except.ok [7]) (Except.error "user lookup failed")
      (Except.ok []) (Except.ok []) 0 10
      = Except.error "user lookup failed" := by
  obtain ⟨e, he, hc⟩ := fanout_fails_atomically
    (fun _ => false) (fun _ => false)
    (Except.ok [7]) (Except.error "user lookup failed")
    (Except.ok []) (Except.ok []) 0 10
    (Or.inr (Or.inl ⟨"user lookup failed", rfl⟩))
  rcases hc with hc | ⟨_, hc⟩ | ⟨_, ⟨b, hb⟩, _⟩ | ⟨_, ⟨b, hb⟩, _⟩
  · exact Except.noConfusion hc
  · rw [he]
    injection hc with hc'
    rw [hc']
  · exact Except.noConfusion hb
  · exact Except.noConfusion hb

/-! ## C9: determinism -/

/-- C9: the endpoint is deterministic and idempotent — two executions
with identical inputs (query, offset, limit, actor, policy oracles) over
unchanged underlying data produce identical envelopes. -/
theorem mention_deterministic (db₁ db₂ : Database)
    (canReadEmail₁ canReadEmail₂ canReadDetails₁ canReadDetails₂ : User → Bool)
    (docs₁ docs₂ colls₁ colls₂ : List Nat) (actor₁ actor₂ : Actor)
    (query₁ query₂ : String) (offset₁ offset₂ limit₁ limit₂ : Nat)
    (hdb : db₁ = db₂) (hce : canReadEmail₁ = canReadEmail₂)
    (hcd : canReadDetails₁ = canReadDetails₂) (hdocs : docs₁ = docs₂)
    (hcolls : colls₁ = colls₂) (hactor : actor₁ = actor₂)
    (hquery : query₁ = query₂) (hoffset : offset₁ = offset₂)
    (hlimit : limit₁ = limit₂) :
    suggestionsMention db₁ canReadEmail₁ canReadDetails₁ docs₁ colls₁
        actor₁ query₁ offset₁ limit₁
      = suggestionsMention db₂ canReadEmail₂ canReadDetails₂ docs₂ colls₂
        actor₂ query₂ offset₂ limit₂ := by
  subst hdb hce hcd hdocs hcolls hactor hquery hoffset hlimit
  rfl

/-- Witness for C9: two runs of a concrete request coincide. -/
theorem mention_deterministic_witness :
    suggestionsMention ⟨[⟨1, 1, "alice", "alice@example.com", none⟩], [], []⟩
        (fun _ => true) (fun _ => true) [3] [4]
        ⟨1, 1, UserRole.member, none⟩ "ali" 0 10
      = suggestionsMention ⟨[⟨1, 1, "alice", "alice@example.com", none⟩], [], []⟩
        (fun _ => true) (fun _ => true) [3] [4]
        ⟨1, 1, UserRole.member, none⟩ "ali" 0 10 :=
  mention_deterministic _ _ _ _ _ _ _ _ _ _ _ _ _ _ _ _ _ _
    rfl rfl rfl rfl rfl rfl rfl rfl rfl

end Suggestions

